import Mathlib

/-!
Shallow embedding of `dnshostprovider.go` from the go-zookeeper repository.

Go strings are modelled as `List Char`; Go slices as Lean lists. The
process-wide random source consumed by `rand.Shuffle` / `rand.Intn` is
modelled by an explicit stream of draws `js : Nat → Nat` (the draw for
`rand.Intn (i+1)` is `js i % (i+1)`, which is exactly the contract of
`Intn`: a value in `[0, i+1)`). The ambient DNS resolver `net.LookupHost`
is an explicit parameter `net : Resolver`; the provider's injectable
override `lookupHost` is an `Option Resolver` field, `none` meaning the
Go nil default. Go's `error` results are modelled with `Except`/`Option`
of small error types (the error message formatting of `fmt.Errorf` and
`net.AddrError` is elided; only which error fires is kept). A Go panic
(integer modulo by zero, out-of-range index) is modelled by `Next`
returning `none`. The mutex field only serialises calls and carries no
data, so it is omitted.
-/

namespace ZkHost

/-- Go string, modelled as a list of characters. -/
abbrev GoStr := List Char

/-- Index of the first occurrence of byte `c` in `s`, or -1 (Go `byteIndex`). -/
def byteIndex (s : GoStr) (c : Char) : Int :=
  match s.findIdx? (· = c) with
  | some i => (i : Int)
  | none => -1

/-- Index of the last occurrence of byte `c` in `s`, or -1 (Go `last` helper
used by `net.SplitHostPort`). -/
def lastIndex (s : GoStr) (c : Char) : Int :=
  match s.reverse.findIdx? (· = c) with
  | some i => (s.length : Int) - 1 - i
  | none => -1

/-- The distinct failure cases of `net.SplitHostPort` (`net.AddrError`
with the message strings elided). -/
inductive AddrError where
  | missingPort
  | tooManyColons
  | missingRBracket
  | unexpectedLBracket
  | unexpectedRBracket
deriving DecidableEq, Repr

/-- Tail of `net.SplitHostPort`: the two bracket sanity checks over
`hostPort[j:]` and `hostPort[k:]`, then `port = hostPort[i+1:]`. -/
def finishSplit (hostPort host : GoStr) (i : Int) (j k : Nat) :
    Except AddrError (GoStr × GoStr) :=
  if byteIndex (hostPort.drop j) '[' ≥ 0 then
    .error .unexpectedLBracket
  else if byteIndex (hostPort.drop k) ']' ≥ 0 then
    .error .unexpectedRBracket
  else
    .ok (host, hostPort.drop (i + 1).toNat)

/-- `net.SplitHostPort` from the Go standard library: the port starts after
the last colon; a leading bracket introduces an IPv6 literal whose closing
bracket must sit just before that colon. -/
def splitHostPort (hostPort : GoStr) : Except AddrError (GoStr × GoStr) :=
  let i := lastIndex hostPort ':'
  if i < 0 then
    .error .missingPort
  else if hostPort.headD ' ' = '[' then
    let e := byteIndex hostPort ']'
    if e < 0 then
      .error .missingRBracket
    else if e + 1 = (hostPort.length : Int) then
      .error .missingPort
    else if e + 1 = i then
      finishSplit hostPort ((hostPort.take e.toNat).drop 1) i 1 (e + 1).toNat
    else if hostPort.getD (e + 1).toNat ' ' = ':' then
      .error .tooManyColons
    else
      .error .missingPort
  else
    let host := hostPort.take i.toNat
    if byteIndex host ':' ≥ 0 then
      .error .tooManyColons
    else
      finishSplit hostPort host i 0 0

/-- `net.JoinHostPort`: brackets the host when it contains a colon. -/
def joinHostPort (host port : GoStr) : GoStr :=
  if byteIndex host ':' ≥ 0 then
    ('[' :: host) ++ (']' :: ':' :: port)
  else
    host ++ (':' :: port)

/-- The `inetAddress` struct of `dnshostprovider.go`. -/
structure inetAddress where
  host : GoStr
  port : GoStr
  resolved : Bool
deriving DecidableEq, Repr, Inhabited

/-- `inetAddress.addr()`: format as "host:port". -/
def inetAddress.addr (ia : inetAddress) : GoStr :=
  joinHostPort ia.host ia.port

/-- The shape of `net.LookupHost` and of the injectable `lookupHost`
field: hostname to list of IP strings, or an error (message kept). -/
abbrev Resolver := GoStr → Except GoStr (List GoStr)

/-- The failure cases of `DNSHostProvider.resolve`. -/
inductive ResolveError where
  | lookupFailed (msg : GoStr)
  | noHostsFound
deriving DecidableEq, Repr

/-- One swap `l[i], l[j] = l[j], l[i]` of the shuffle callback; out-of-range
indices never occur along `rand.Shuffle`, the guard only keeps it total. -/
def swapL {α : Type} (l : List α) (i j : Nat) : List α :=
  if hi : i < l.length then
    if hj : j < l.length then
      (l.set i l[j]).set j l[i]
    else l
  else l

/-- The loop of Go's `rand.Shuffle`: for `i := n-1; i > 0; i--` draw
`j := Intn(i+1)` and swap positions `i` and `j`. The draw stream is `js`. -/
def shuffleFrom {α : Type} (js : Nat → Nat) : List α → Nat → List α
  | l, 0 => l
  | l, i + 1 => shuffleFrom js (swapL l (i + 1) (js (i + 1) % (i + 2))) i

/-- `rand.Shuffle(len l, swap)` with draw stream `js`. -/
def shuffleGo {α : Type} (js : Nat → Nat) (l : List α) : List α :=
  shuffleFrom js l (l.length - 1)

/-- The `DNSHostProvider` struct: server sequence, cursor `curr`, anchor
`last`, and the optional injected resolver (Go nil = `none`). -/
structure DNSHostProvider where
  servers : List inetAddress
  curr : Int
  last : Int
  lookupHost : Option Resolver

instance : Inhabited DNSHostProvider :=
  ⟨⟨[], 0, 0, none⟩⟩

/-- `DNSHostProvider.resolve`: already-resolved entries are returned
unchanged; otherwise the effective resolver (injected, else `net`) is
consulted, the result list shuffled, and its first element pinned as the
host of a new record with `resolved = true`. On lookup failure or an empty
result the original record is returned together with the error. -/
def resolve (net : Resolver) (js : Nat → Nat) (hp : DNSHostProvider)
    (addr : inetAddress) : inetAddress × Option ResolveError :=
  if addr.resolved then
    (addr, none)
  else
    let lookupHost := hp.lookupHost.getD net
    match lookupHost addr.host with
    | .error e => (addr, some (.lookupFailed e))
    | .ok ips =>
      if ips.length = 0 then
        (addr, some .noHostsFound)
      else
        let ips2 := shuffleGo js ips
        (⟨ips2.headD [], addr.port, true⟩, none)

/-- `DNSHostProvider.Len`. -/
def Len (hp : DNSHostProvider) : Nat :=
  hp.servers.length

/-- `DNSHostProvider.Next`. Go's `%` on int is truncated division
remainder, i.e. `Int.tmod`; `% 0` and a negative index both panic, which
the embedding renders as `none`. Note the source formats and returns the
record produced by `resolve` but never stores it back into `hp.servers`. -/
def Next (net : Resolver) (js : Nat → Nat) (hp : DNSHostProvider) :
    Option (GoStr × Bool × DNSHostProvider) :=
  if hp.servers.length = 0 then
    none
  else
    let curr := Int.tmod (hp.curr + 1) (hp.servers.length : Int)
    if curr < 0 then
      none
    else
      let retryStart := decide (curr = hp.last)
      let newLast := if hp.last = -1 then (0 : Int) else hp.last
      let hp2 : DNSHostProvider := ⟨hp.servers, curr, newLast, hp.lookupHost⟩
      let r := resolve net js hp2 (hp.servers.getD curr.toNat default)
      some (r.1.addr, retryStart, hp2)

/-- `DNSHostProvider.Connected`. -/
def Connected (hp : DNSHostProvider) : DNSHostProvider :=
  ⟨hp.servers, hp.curr, hp.curr, hp.lookupHost⟩

/-- The failure cases of `DNSHostProvider.Init`. -/
inductive InitError where
  | splitError (e : AddrError)
  | noHostsFound
deriving DecidableEq, Repr

/-- The parsing loop of `Init`: split every entry, aborting at the first
malformed one, and build the unresolved candidate records in input order. -/
def buildAddrs : List GoStr → Except AddrError (List inetAddress)
  | [] => .ok []
  | s :: ss =>
    match splitHostPort s with
    | .error e => .error e
    | .ok hpPair =>
      match buildAddrs ss with
      | .error e => .error e
      | .ok rest => .ok (⟨hpPair.1, hpPair.2, false⟩ :: rest)

/-- `DNSHostProvider.Init`: parse, reject an empty candidate list, shuffle,
then replace `servers` and reset `curr = last = -1`. An early `return err`
leaves the receiver untouched, hence the pair result `(state, error?)`. -/
def Init (js : Nat → Nat) (hp : DNSHostProvider) (servers : List GoStr) :
    DNSHostProvider × Option InitError :=
  match buildAddrs servers with
  | .error e => (hp, some (.splitError e))
  | .ok addrs =>
    if addrs.length = 0 then
      (hp, some .noHostsFound)
    else
      (⟨shuffleGo js addrs, -1, -1, hp.lookupHost⟩, none)

/-! ### Helper lemmas: the shuffle permutes, parsing facts, `Next` shape -/

/-- Moving the element at position `k` to the front while writing `a` into
position `k` is a permutation of pushing `a` to the front. -/
theorem cons_set_perm {α : Type} (xs : List α) (k : Nat) (hk : k < xs.length)
    (a : α) : List.Perm (xs.get ⟨k, hk⟩ :: xs.set k a) (a :: xs) := by
  induction xs generalizing k with
  | nil => simp at hk
  | cons x t ih =>
    cases k with
    | zero => exact List.Perm.swap a x t
    | succ k =>
      have hk2 : k < t.length := Nat.lt_of_succ_lt_succ hk
      show List.Perm (t.get ⟨k, hk2⟩ :: x :: t.set k a) (a :: x :: t)
      exact ((List.Perm.swap x (t.get ⟨k, hk2⟩) (t.set k a)).trans
        ((ih k hk2).cons x)).trans (List.Perm.swap a x t)

/-- Exchanging the entries at two positions is a permutation. -/
theorem set_set_perm {α : Type} (l : List α) (i j : Nat) (hi : i < l.length)
    (hj : j < l.length) :
    List.Perm ((l.set i (l.get ⟨j, hj⟩)).set j (l.get ⟨i, hi⟩)) l := by
  induction l generalizing i j with
  | nil => simp at hi
  | cons x t ih =>
    cases i with
    | zero =>
      cases j with
      | zero => exact List.Perm.refl _
      | succ j =>
        have hj2 : j < t.length := Nat.lt_of_succ_lt_succ hj
        show List.Perm (t.get ⟨j, hj2⟩ :: t.set j x) (x :: t)
        exact cons_set_perm t j hj2 x
    | succ i =>
      have hi2 : i < t.length := Nat.lt_of_succ_lt_succ hi
      cases j with
      | zero =>
        show List.Perm (t.get ⟨i, hi2⟩ :: t.set i x) (x :: t)
        exact cons_set_perm t i hi2 x
      | succ j =>
        have hj2 : j < t.length := Nat.lt_of_succ_lt_succ hj
        show List.Perm (x :: (t.set i (t.get ⟨j, hj2⟩)).set j (t.get ⟨i, hi2⟩))
          (x :: t)
        exact (ih i j hi2 hj2).cons x

theorem swapL_perm {α : Type} (l : List α) (i j : Nat) :
    List.Perm (swapL l i j) l := by
  unfold swapL
  split
  · split
    · exact set_set_perm l i j (by assumption) (by assumption)
    · exact List.Perm.refl l
  · exact List.Perm.refl l

theorem shuffleFrom_perm {α : Type} (js : Nat → Nat) :
    ∀ (n : Nat) (l : List α), List.Perm (shuffleFrom js l n) l := by
  intro n
  induction n with
  | zero => intro l; exact List.Perm.refl l
  | succ n ih =>
    intro l
    exact (ih _).trans (swapL_perm l (n + 1) (js (n + 1) % (n + 2)))

theorem shuffleGo_perm {α : Type} (js : Nat → Nat) (l : List α) :
    List.Perm (shuffleGo js l) l :=
  shuffleFrom_perm js (l.length - 1) l

theorem shuffleGo_length {α : Type} (js : Nat → Nat) (l : List α) :
    (shuffleGo js l).length = l.length :=
  (shuffleGo_perm js l).length_eq

/-- If every entry splits, the parse loop succeeds, preserves the count and
produces only unresolved records. -/
theorem buildAddrs_ok (ss : List GoStr)
    (h : ∀ e ∈ ss, (splitHostPort e).isOk = true) :
    ∃ parsed, buildAddrs ss = .ok parsed ∧ parsed.length = ss.length ∧
      ∀ a ∈ parsed, a.resolved = false := by
  induction ss with
  | nil => exact ⟨[], rfl, rfl, by simp⟩
  | cons s ss ih =>
    have hs : (splitHostPort s).isOk = true := h s (by simp)
    obtain ⟨parsed, hp1, hp2, hp3⟩ := ih (fun e he => h e (by simp [he]))
    match hsp : splitHostPort s with
    | .error e => rw [hsp] at hs; simp [Except.isOk, Except.toBool] at hs
    | .ok pr =>
      refine ⟨⟨pr.1, pr.2, false⟩ :: parsed, ?_, by simp [hp2], ?_⟩
      · simp [buildAddrs, hsp, hp1]
      · intro a ha
        rcases List.mem_cons.mp ha with h1 | h2
        · simp [h1]
        · exact hp3 a h2

/-- If some entry fails to split, the parse loop fails. -/
theorem buildAddrs_error (ss : List GoStr)
    (h : ∃ e ∈ ss, (splitHostPort e).isOk = false) :
    ∃ err, buildAddrs ss = .error err := by
  induction ss with
  | nil => simp at h
  | cons s ss ih =>
    match hsp : splitHostPort s with
    | .error e => exact ⟨e, by simp [buildAddrs, hsp]⟩
    | .ok pr =>
      obtain ⟨e, he, hbad⟩ := h
      rcases List.mem_cons.mp he with h1 | h2
      · rw [h1, hsp] at hbad; simp [Except.isOk, Except.toBool] at hbad
      · obtain ⟨err, herr⟩ := ih ⟨e, h2, hbad⟩
        exact ⟨err, by simp [buildAddrs, hsp, herr]⟩

theorem joinHostPort_ne_nil (h p : GoStr) : joinHostPort h p ≠ [] := by
  unfold joinHostPort
  split
  · simp
  · cases h <;> simp

/-- Shape of a successful `Next` call on a state satisfying the cursor
invariant: the truncated remainder is the Euclidean one and is in range. -/
theorem Next_eq_some (net : Resolver) (js : Nat → Nat) (hp : DNSHostProvider)
    (hne : hp.servers ≠ []) (hc : -1 ≤ hp.curr) :
    Next net js hp = some
      ((resolve net js
          ⟨hp.servers, (hp.curr + 1) % (hp.servers.length : Int),
            if hp.last = -1 then 0 else hp.last, hp.lookupHost⟩
          (hp.servers.getD
            ((hp.curr + 1) % (hp.servers.length : Int)).toNat default)).1.addr,
        decide ((hp.curr + 1) % (hp.servers.length : Int) = hp.last),
        ⟨hp.servers, (hp.curr + 1) % (hp.servers.length : Int),
          if hp.last = -1 then 0 else hp.last, hp.lookupHost⟩) := by
  have hN : hp.servers.length ≠ 0 := by simpa using hne
  have hNpos : (0 : Int) < (hp.servers.length : Int) := by
    exact_mod_cast Nat.pos_of_ne_zero hN
  have htm : Int.tmod (hp.curr + 1) (hp.servers.length : Int) =
      (hp.curr + 1) % (hp.servers.length : Int) :=
    Int.tmod_eq_emod (by omega) (by omega)
  have hnonneg : 0 ≤ (hp.curr + 1) % (hp.servers.length : Int) :=
    Int.emod_nonneg _ (by omega)
  simp only [Next, htm]
  rw [if_neg hN, if_neg (by omega : ¬ (hp.curr + 1) % (hp.servers.length : Int) < 0)]

/-! ### Call-sequence harness: iterated `Next`, reachable states -/

/-- State after `n` consecutive `Next` calls (`none` if any call panics). -/
def iterNext (net : Resolver) (js : Nat → Nat) :
    Nat → DNSHostProvider → Option DNSHostProvider
  | 0, hp => some hp
  | n + 1, hp =>
    match Next net js hp with
    | some o => iterNext net js n o.2.2
    | none => none

/-- `retryStart` reported by the `k`-th `Next` call (`k ≥ 1`) from `hp`. -/
def retryAt (net : Resolver) (js : Nat → Nat) (hp : DNSHostProvider)
    (k : Nat) : Option Bool :=
  match iterNext net js (k - 1) hp with
  | some s => (Next net js s).map (fun o => o.2.1)
  | none => none

/-- Iteration peels from the back as well as from the front. -/
theorem iterNext_succ (net : Resolver) (js : Nat → Nat) (n : Nat)
    (hp : DNSHostProvider) :
    iterNext net js (n + 1) hp =
      match iterNext net js n hp with
      | some s => (Next net js s).map (fun o => o.2.2)
      | none => none := by
  induction n generalizing hp with
  | zero => cases hnext : Next net js hp <;> simp [iterNext, hnext]
  | succ n ih =>
    cases hnext : Next net js hp with
    | none => simp [iterNext, hnext]
    | some o =>
      simp only [iterNext, hnext]
      exact ih o.2.2

/-- After `k ≥ 1` calls on a freshly initialised state the cursor sits at
`(k-1) mod N` and the anchor has been promoted to 0. -/
theorem iterNext_fresh (net : Resolver) (js : Nat → Nat)
    (l : List inetAddress) (lh : Option Resolver) (hl : l ≠ [])
    (k : Nat) (hk : 1 ≤ k) :
    iterNext net js k ⟨l, -1, -1, lh⟩ =
      some ⟨l, (((k - 1) % l.length : Nat) : Int), 0, lh⟩ := by
  induction k with
  | zero => exact absurd hk (by omega)
  | succ k ih =>
    rcases Nat.eq_zero_or_pos k with h0 | hpos
    · subst h0
      have hn := Next_eq_some net js ⟨l, -1, -1, lh⟩ hl le_rfl
      simp [iterNext, hn]
    · have hc : -1 ≤ (((k - 1) % l.length : Nat) : Int) := by omega
      have hn := Next_eq_some net js
        ⟨l, (((k - 1) % l.length : Nat) : Int), 0, lh⟩ hl hc
      have harith : ((((k - 1) % l.length : Nat) : Int) + 1) %
          (l.length : Int) = ((k % l.length : Nat) : Int) := by
        have h3 : ((((k - 1) % l.length : Nat) : Int) + 1) =
            (((k - 1) % l.length + 1 : Nat) : Int) := by push_cast; ring
        have h2 : ((k - 1) % l.length + 1) % l.length = k % l.length := by
          rw [Nat.mod_add_mod, Nat.sub_add_cancel hpos]
        rw [h3, ← Int.ofNat_emod, h2]
      rw [iterNext_succ, ih hpos]
      show (Next net js ⟨l, (((k - 1) % l.length : Nat) : Int), 0, lh⟩).map
        (fun o => o.2.2) =
        some ⟨l, (((k + 1 - 1) % l.length : Nat) : Int), 0, lh⟩
      rw [hn, Option.map_some']
      show some (⟨l, ((((k - 1) % l.length : Nat) : Int) + 1) % (l.length : Int),
          if (0 : Int) = -1 then (0 : Int) else 0, lh⟩ : DNSHostProvider) =
        some ⟨l, ((k % l.length : Nat) : Int), 0, lh⟩
      rw [harith, if_neg (by norm_num : ¬ (0 : Int) = -1)]

/-- States reachable from a successful `Init` through `Next` and
`Connected` calls (`Len` reads but never writes, so it is omitted). -/
inductive Reachable : DNSHostProvider → Prop where
  | init (js : Nat → Nat) (hp : DNSHostProvider) (servers : List GoStr)
      (hp2 : DNSHostProvider) :
      Init js hp servers = (hp2, none) → Reachable hp2
  | next (net : Resolver) (js : Nat → Nat) (hp : DNSHostProvider)
      (out : GoStr × Bool × DNSHostProvider) :
      Reachable hp → Next net js hp = some out → Reachable out.2.2
  | connected (hp : DNSHostProvider) :
      Reachable hp → Reachable (Connected hp)

/-- The data-model invariant: non-empty sequence, `curr` and `last` each
-1 or a valid index. -/
def Inv (hp : DNSHostProvider) : Prop :=
  hp.servers ≠ [] ∧
  (hp.curr = -1 ∨ (0 ≤ hp.curr ∧ hp.curr < (hp.servers.length : Int))) ∧
  (hp.last = -1 ∨ (0 ≤ hp.last ∧ hp.last < (hp.servers.length : Int)))

theorem natCast_mod_rotate (m N : Nat) (hm : 1 ≤ m) :
    ((((m - 1) % N : Nat) : Int) + 1) % (N : Int) = ((m % N : Nat) : Int) := by
  have h3 : ((((m - 1) % N : Nat) : Int) + 1) =
      (((m - 1) % N + 1 : Nat) : Int) := by push_cast; ring
  have h2 : ((m - 1) % N + 1) % N = m % N := by
    rw [Nat.mod_add_mod, Nat.sub_add_cancel hm]
  rw [h3, ← Int.ofNat_emod, h2]

/-- The first `Next` call after `Init` never reports `retryStart`: the new
cursor 0 is compared against the still-unpromoted anchor -1. -/
theorem retryAt_fresh_one (net : Resolver) (js : Nat → Nat)
    (lh : Option Resolver) (l : List inetAddress) (hl : l ≠ []) :
    retryAt net js ⟨l, -1, -1, lh⟩ 1 = some false := by
  have hn := Next_eq_some net js ⟨l, -1, -1, lh⟩ hl le_rfl
  show (Next net js ⟨l, -1, -1, lh⟩).map (fun o => o.2.1) = some false
  rw [hn, Option.map_some']
  refine congrArg some ?_
  show decide (((-1 : Int) + 1) % (l.length : Int) = -1) = false
  rw [decide_eq_false_iff_not]
  intro hcontra
  norm_num at hcontra

/-- From the `k`-th call on (`k ≥ 2`) the flag of a fresh run says whether
the cursor has wrapped to index 0, i.e. whether `(k-1) mod N = 0`. -/
theorem retryAt_fresh_ge2 (net : Resolver) (js : Nat → Nat)
    (lh : Option Resolver) (l : List inetAddress) (hl : l ≠ [])
    (k : Nat) (hk : 2 ≤ k) :
    retryAt net js ⟨l, -1, -1, lh⟩ k =
      some (decide ((((k - 1) % l.length : Nat) : Int) = 0)) := by
  have hit := iterNext_fresh net js l lh hl (k - 1) (by omega)
  have hc : -1 ≤ (((k - 1 - 1) % l.length : Nat) : Int) := by omega
  have hn := Next_eq_some net js
    ⟨l, (((k - 1 - 1) % l.length : Nat) : Int), 0, lh⟩ hl hc
  unfold retryAt
  rw [hit]
  show (Next net js ⟨l, (((k - 1 - 1) % l.length : Nat) : Int), 0, lh⟩).map
    (fun o => o.2.1) = some (decide ((((k - 1) % l.length : Nat) : Int) = 0))
  rw [hn, Option.map_some']
  refine congrArg some ?_
  rw [decide_eq_decide]
  show (((((k - 1 - 1) % l.length : Nat) : Int) + 1) % (l.length : Int) = 0) ↔
    ((((k - 1) % l.length : Nat) : Int) = 0)
  rw [natCast_mod_rotate (k - 1) l.length (by omega)]

/-! ### Claims -/

/-- Claim C1, a code bug. The spec says the record produced by `resolve`
(`resolved = true`, chosen IP) replaces the previous record in the
provider's sequence so that later `Next()` calls on the same index skip
DNS. The source never stores that record back: `Next` formats the value
returned by `resolve` but leaves `hp.servers` untouched, so the entry
stays `resolved = false` (the `addr.resolved` short-circuit in `resolve`
is dead code) and every later call at the index consults the resolver
again. Run shown: one candidate "a:1"; the first call resolves to
"10.0.0.1:1" yet the after-state still holds the unresolved entry; a
second call from exactly that after-state, with the ambient DNS now
answering "10.0.0.2", returns "10.0.0.2:1" — impossible if the first
result had been cached. -/
theorem c1_resolution_not_cached :
    ((Init (fun _ => 0) ⟨[], -1, -1, none⟩
        [['a', ':', '1']]).1.servers = [⟨['a'], ['1'], false⟩]) ∧
    ((Next (fun _ => .ok [['1', '0', '.', '0', '.', '0', '.', '1']])
        (fun _ => 0) ⟨[⟨['a'], ['1'], false⟩], -1, -1, none⟩).map
      (fun o => (o.1, o.2.1, o.2.2.servers, o.2.2.curr, o.2.2.last)) =
      some (['1', '0', '.', '0', '.', '0', '.', '1', ':', '1'], false,
        [⟨['a'], ['1'], false⟩], 0, 0)) ∧
    ((Next (fun _ => .ok [['1', '0', '.', '0', '.', '0', '.', '2']])
        (fun _ => 0) ⟨[⟨['a'], ['1'], false⟩], 0, 0, none⟩).map
      (fun o => o.1) =
      some ['1', '0', '.', '0', '.', '0', '.', '2', ':', '1']) :=
  ⟨by decide, by decide, by decide⟩

/-- Claim C2, counterexample. The claim demands `retryStart = true` on
exactly the Nth call after `Init`. With N = 1 the Init here succeeds, yet
the 1st (= Nth) call reports `retryStart = false`: the new cursor 0 is
compared against the anchor -1 before its promotion. -/
theorem c2_nth_call_no_retry :
    (Init (fun _ => 0) ⟨[], -1, -1, none⟩ [['a', ':', '1']]).2 = none ∧
    Len (Init (fun _ => 0) ⟨[], -1, -1, none⟩ [['a', ':', '1']]).1 = 1 ∧
    retryAt (fun _ => Except.error []) (fun _ => 0)
      (Init (fun _ => 0) ⟨[], -1, -1, none⟩ [['a', ':', '1']]).1 1 =
      some false :=
  ⟨by decide, by decide, by decide⟩

/-- Claim C2 as amended: after a successful `Init` with N candidates and
no intervening `Connected()`, each of the first N `Next()` calls yields
`retryStart = false`; the call on which the cursor returns to index 0 (the
default anchor) is the (N+1)-th, and it yields `retryStart = true`. -/
theorem c2_retry_cycle_flags (net : Resolver) (js : Nat → Nat)
    (lh : Option Resolver) (l : List inetAddress) (hl : l ≠ [])
    (k : Nat) (hk1 : 1 ≤ k) (hkN : k ≤ l.length) :
    retryAt net js ⟨l, -1, -1, lh⟩ k = some false ∧
    retryAt net js ⟨l, -1, -1, lh⟩ (l.length + 1) = some true := by
  have hNpos : 0 < l.length := List.length_pos.mpr hl
  constructor
  · rcases Nat.lt_or_ge k 2 with h2 | h2
    · have hk1eq : k = 1 := by omega
      subst hk1eq
      exact retryAt_fresh_one net js lh l hl
    · rw [retryAt_fresh_ge2 net js lh l hl k h2]
      refine congrArg some ?_
      rw [decide_eq_false_iff_not]
      rw [Nat.mod_eq_of_lt (by omega : k - 1 < l.length)]
      intro hcontra
      have hz : (k - 1 : Nat) = 0 := by exact_mod_cast hcontra
      omega
  · rw [retryAt_fresh_ge2 net js lh l hl (l.length + 1) (by omega)]
    refine congrArg some ?_
    rw [decide_eq_true_eq]
    show ((((l.length + 1 - 1) % l.length : Nat) : Int) = 0)
    rw [show (l.length + 1 - 1) = l.length from rfl, Nat.mod_self]
    simp

theorem c2_retry_cycle_flags_witness :
    retryAt (fun _ => Except.error []) (fun _ => 0)
      ⟨[⟨['a'], ['1'], false⟩, ⟨['b'], ['2'], false⟩], -1, -1, none⟩ 2 =
      some false ∧
    retryAt (fun _ => Except.error []) (fun _ => 0)
      ⟨[⟨['a'], ['1'], false⟩, ⟨['b'], ['2'], false⟩], -1, -1, none⟩ 3 =
      some true :=
  c2_retry_cycle_flags (fun _ => Except.error []) (fun _ => 0) none
    [⟨['a'], ['1'], false⟩, ⟨['b'], ['2'], false⟩] (by decide) 2 (by decide)
    (by decide)

/-- Claim C3: on any state with a non-empty sequence (and the data-model
bound `curr ≥ -1`), one `Next()` call sets `curr` to `(curr + 1) mod N`,
returns `retryStart = (new curr == last-before-update)`, and promotes
`last` from -1 to 0 without touching `curr`; `Connected` never changes
`curr` and `Len` only reads the state. (`Init` re-creates the whole state,
see C6, so among the session operations only `Next` moves the cursor.) -/
theorem c3_next_advances_cursor (net : Resolver) (js : Nat → Nat)
    (hp : DNSHostProvider) (hne : hp.servers ≠ []) (hc : -1 ≤ hp.curr) :
    (∃ s, Next net js hp = some (s,
      decide ((hp.curr + 1) % (hp.servers.length : Int) = hp.last),
      ⟨hp.servers, (hp.curr + 1) % (hp.servers.length : Int),
        if hp.last = -1 then 0 else hp.last, hp.lookupHost⟩)) ∧
    (Connected hp).curr = hp.curr ∧
    (∀ hp2 : DNSHostProvider, Len hp2 = hp2.servers.length) :=
  ⟨⟨_, Next_eq_some net js hp hne hc⟩, rfl, fun _ => rfl⟩

theorem c3_next_advances_cursor_witness :
    (∃ s, Next (fun _ => Except.error []) (fun _ => 0)
      ⟨[⟨['a'], ['1'], false⟩], 0, 0, none⟩ =
      some (s, true, ⟨[⟨['a'], ['1'], false⟩], 0, 0, none⟩)) ∧
    (Connected ⟨[⟨['a'], ['1'], false⟩], 0, 0, none⟩).curr = 0 ∧
    (∀ hp2 : DNSHostProvider, Len hp2 = hp2.servers.length) :=
  c3_next_advances_cursor (fun _ => Except.error []) (fun _ => 0)
    ⟨[⟨['a'], ['1'], false⟩], 0, 0, none⟩ (by decide) (by decide)

/-- Claim C4: `Init` is atomic on error. For an input containing an entry
that does not split as host:port, and for the empty input, `Init` reports
an error and the provider state is returned unchanged. -/
theorem c4_init_error_atomic (js : Nat → Nat) (hp : DNSHostProvider)
    (servers : List GoStr)
    (h : servers = [] ∨ ∃ e ∈ servers, (splitHostPort e).isOk = false) :
    (Init js hp servers).1 = hp ∧ (Init js hp servers).2.isSome = true := by
  rcases h with rfl | hbad
  · exact ⟨rfl, rfl⟩
  · obtain ⟨err, herr⟩ := buildAddrs_error servers hbad
    unfold Init
    rw [herr]
    exact ⟨rfl, rfl⟩

theorem c4_init_error_atomic_witness :
    ((([['b', 'a', 'd', 'h', 'o', 's', 't']] : List GoStr) = [] ∨
      ∃ e ∈ ([['b', 'a', 'd', 'h', 'o', 's', 't']] : List GoStr),
        (splitHostPort e).isOk = false) ∧
    ((Init (fun _ => 0) ⟨[⟨['a'], ['1'], false⟩], 0, 0, none⟩
        [['b', 'a', 'd', 'h', 'o', 's', 't']]).1 =
      ⟨[⟨['a'], ['1'], false⟩], 0, 0, none⟩ ∧
      (Init (fun _ => 0) ⟨[⟨['a'], ['1'], false⟩], 0, 0, none⟩
        [['b', 'a', 'd', 'h', 'o', 's', 't']]).2.isSome = true)) :=
  ⟨Or.inr (by decide),
    c4_init_error_atomic (fun _ => 0) ⟨[⟨['a'], ['1'], false⟩], 0, 0, none⟩
      [['b', 'a', 'd', 'h', 'o', 's', 't']] (Or.inr (by decide))⟩

/-- Claim C5: when the effective lookup fails (error or zero results) on
the unresolved candidate at the new cursor, `Next()` still returns the
original candidate formatted as "host:port" — a non-empty string — and the
sequence (hence the candidate's `resolved = false` flag) is unchanged. -/
theorem c5_next_lookup_failure_fallback (net : Resolver) (js : Nat → Nat)
    (hp : DNSHostProvider) (hne : hp.servers ≠ []) (hc : -1 ≤ hp.curr)
    (c : inetAddress)
    (hcand : hp.servers.getD
      ((hp.curr + 1) % (hp.servers.length : Int)).toNat default = c)
    (hunres : c.resolved = false)
    (hfail : (∃ m, (hp.lookupHost.getD net) c.host = .error m) ∨
      (hp.lookupHost.getD net) c.host = .ok []) :
    ∃ b hp2, Next net js hp = some (joinHostPort c.host c.port, b, hp2) ∧
      hp2.servers = hp.servers ∧
      joinHostPort c.host c.port ≠ [] ∧
      (hp2.servers.getD hp2.curr.toNat default).resolved = false := by
  have hn := Next_eq_some net js hp hne hc
  rw [hcand] at hn
  have hres : resolve net js
      ⟨hp.servers, (hp.curr + 1) % (hp.servers.length : Int),
        if hp.last = -1 then 0 else hp.last, hp.lookupHost⟩ c =
      (c, (resolve net js
        ⟨hp.servers, (hp.curr + 1) % (hp.servers.length : Int),
          if hp.last = -1 then 0 else hp.last, hp.lookupHost⟩ c).2) := by
    unfold resolve
    rw [hunres]
    simp only [Bool.false_eq_true, if_false]
    rcases hfail with ⟨m, hm⟩ | hm
    · rw [hm]
    · rw [hm]
      exact rfl
  rw [hres] at hn
  refine ⟨_, _, hn, rfl, joinHostPort_ne_nil c.host c.port, ?_⟩
  show (hp.servers.getD
    ((hp.curr + 1) % (hp.servers.length : Int)).toNat default).resolved = false
  rw [hcand, hunres]

theorem c5_next_lookup_failure_fallback_witness :
    ∃ b hp2, Next (fun _ => Except.error ['x']) (fun _ => 0)
      ⟨[⟨['a'], ['1'], false⟩], -1, -1, none⟩ =
      some (joinHostPort ['a'] ['1'], b, hp2) ∧
      hp2.servers = [⟨['a'], ['1'], false⟩] ∧
      joinHostPort ['a'] ['1'] ≠ [] ∧
      (hp2.servers.getD hp2.curr.toNat default).resolved = false :=
  c5_next_lookup_failure_fallback (fun _ => Except.error ['x']) (fun _ => 0)
    ⟨[⟨['a'], ['1'], false⟩], -1, -1, none⟩ (by decide) (by decide)
    ⟨['a'], ['1'], false⟩ (by decide) (by decide) (Or.inl ⟨['x'], rfl⟩)

/-- Claim C6: on input whose entries all split as host:port with at least
one candidate, `Init` succeeds, replaces the state of any prior provider
with the shuffled parsed list (a permutation of the parsed (host, port)
pairs, each `resolved = false`) and `curr = last = -1`. The embedding of
`Init` takes no resolver argument at all: no DNS resolution can happen
during the call. -/
theorem c6_init_shuffles_parsed (js : Nat → Nat) (hp : DNSHostProvider)
    (servers : List GoStr)
    (hall : ∀ e ∈ servers, (splitHostPort e).isOk = true)
    (hne : servers ≠ []) :
    ∃ parsed, buildAddrs servers = .ok parsed ∧
      Init js hp servers = (⟨shuffleGo js parsed, -1, -1, hp.lookupHost⟩, none) ∧
      List.Perm (shuffleGo js parsed) parsed ∧
      (∀ a ∈ shuffleGo js parsed, a.resolved = false) ∧
      parsed.length = servers.length := by
  obtain ⟨parsed, hok, hlen, hres⟩ := buildAddrs_ok servers hall
  have hlen0 : parsed.length ≠ 0 := by
    rw [hlen]
    exact fun h => hne (List.length_eq_zero.mp h)
  refine ⟨parsed, hok, ?_, shuffleGo_perm js parsed, ?_, hlen⟩
  · unfold Init
    rw [hok]
    simp [hlen0]
  · intro a ha
    exact hres a ((shuffleGo_perm js parsed).mem_iff.mp ha)

theorem c6_init_shuffles_parsed_witness :
    ∃ parsed, buildAddrs [['a', ':', '1'], ['b', ':', '2']] = .ok parsed ∧
      Init (fun _ => 0) ⟨[], -1, -1, none⟩ [['a', ':', '1'], ['b', ':', '2']] =
        (⟨shuffleGo (fun _ => 0) parsed, -1, -1, none⟩, none) ∧
      List.Perm (shuffleGo (fun _ => 0) parsed) parsed ∧
      (∀ a ∈ shuffleGo (fun _ => 0) parsed, a.resolved = false) ∧
      parsed.length = 2 :=
  c6_init_shuffles_parsed (fun _ => 0) ⟨[], -1, -1, none⟩
    [['a', ':', '1'], ['b', ':', '2']] (by decide) (by decide)

/-- Claim C7: in every state reachable from a successful `Init` through
`Next` and `Connected` (and the read-only `Len`), the sequence is
non-empty and `curr` and `last` are each -1 or a valid index. -/
theorem c7_reachable_invariant (hp : DNSHostProvider)
    (h : Reachable hp) : Inv hp := by
  induction h with
  | init js hp0 servers hp2 heq =>
    unfold Init at heq
    cases hb : buildAddrs servers with
    | error e =>
      rw [hb] at heq
      exact Option.noConfusion (congrArg Prod.snd heq)
    | ok addrs =>
      rw [hb] at heq
      by_cases hlen : addrs.length = 0
      · simp only [if_pos hlen] at heq
        exact Option.noConfusion (congrArg Prod.snd heq)
      · simp only [if_neg hlen] at heq
        have h1 : hp2 = ⟨shuffleGo js addrs, -1, -1, hp0.lookupHost⟩ :=
          (congrArg Prod.fst heq).symm
        subst h1
        refine ⟨?_, Or.inl rfl, Or.inl rfl⟩
        intro hnil
        apply hlen
        have h2 := congrArg List.length hnil
        rw [shuffleGo_length] at h2
        simpa using h2
  | next net js hp1 out hr heq ih =>
    obtain ⟨hne, hcurr, hlast⟩ := ih
    have hc : -1 ≤ hp1.curr := by rcases hcurr with h1 | ⟨h1, h2⟩ <;> omega
    rw [Next_eq_some net js hp1 hne hc] at heq
    have hout := (Option.some.inj heq).symm
    subst hout
    have hN0 : hp1.servers.length ≠ 0 := by simpa using hne
    have hNpos : (0 : Int) < (hp1.servers.length : Int) := by
      exact_mod_cast Nat.pos_of_ne_zero hN0
    refine ⟨hne, Or.inr ⟨Int.emod_nonneg _ (by omega),
      Int.emod_lt_of_pos _ hNpos⟩, ?_⟩
    show (if hp1.last = -1 then (0 : Int) else hp1.last) = -1 ∨
      (0 ≤ (if hp1.last = -1 then (0 : Int) else hp1.last) ∧
        (if hp1.last = -1 then (0 : Int) else hp1.last) <
          (hp1.servers.length : Int))
    by_cases hl1 : hp1.last = -1
    · rw [if_pos hl1]
      exact Or.inr ⟨le_refl 0, hNpos⟩
    · rw [if_neg hl1]
      rcases hlast with h1 | hb
      · exact absurd h1 hl1
      · exact Or.inr hb
  | connected hp1 hr ih =>
    exact ⟨ih.1, ih.2.1, ih.2.1⟩

theorem c7_reachable_invariant_witness :
    Inv ⟨[⟨['a'], ['1'], false⟩], -1, -1, none⟩ :=
  c7_reachable_invariant ⟨[⟨['a'], ['1'], false⟩], -1, -1, none⟩
    (Reachable.init (fun _ => 0) ⟨[], -1, -1, none⟩ [['a', ':', '1']] _ rfl)

/-- Claim C8: `Connected()` sets `last := curr` and leaves the sequence,
its entries, `curr` and the resolver override unchanged; besides it, the
only write to `last` among the session operations is `Next()`'s one-time
promotion of -1 to 0 (`Len` performs no writes; `Init` re-creates the
whole state, see C6). -/
theorem c8_connected_frame (hp : DNSHostProvider) :
    (Connected hp).last = hp.curr ∧
    (Connected hp).servers = hp.servers ∧
    (Connected hp).curr = hp.curr ∧
    (Connected hp).lookupHost = hp.lookupHost ∧
    (∀ net js, (Next net js hp).map (fun o => o.2.2.last) =
      (Next net js hp).map (fun _ => if hp.last = -1 then 0 else hp.last)) ∧
    (∀ hp2 : DNSHostProvider, Len hp2 = hp2.servers.length) := by
  refine ⟨rfl, rfl, rfl, rfl, ?_, fun _ => rfl⟩
  intro net js
  simp only [Next]
  split
  · rfl
  · split
    · rfl
    · rfl

/-- Claim C9, counterexample: a non-empty input list on which `Init`
nevertheless fails, refuting "for all non-empty input lists, `Init`
succeeds": the single entry "badhost" has no port separator. -/
theorem c9_malformed_nonempty_fails :
    ([['b', 'a', 'd', 'h', 'o', 's', 't']] : List GoStr) ≠ [] ∧
    (Init (fun _ => 0) ⟨[], -1, -1, none⟩
      [['b', 'a', 'd', 'h', 'o', 's', 't']]).2 ≠ none :=
  ⟨by decide, by decide⟩

/-- Claim C9 as amended: for all non-empty input lists whose entries all
split as host:port, `Init` succeeds and `Len()` then returns the input
length; `Len` is a pure read of the state. -/
theorem c9_init_len (js : Nat → Nat) (hp : DNSHostProvider)
    (servers : List GoStr)
    (hall : ∀ e ∈ servers, (splitHostPort e).isOk = true)
    (hne : servers ≠ []) :
    (Init js hp servers).2 = none ∧
    Len (Init js hp servers).1 = servers.length := by
  obtain ⟨parsed, hok, hlen, -⟩ := buildAddrs_ok servers hall
  have hlen0 : parsed.length ≠ 0 := by
    rw [hlen]
    exact fun h => hne (List.length_eq_zero.mp h)
  unfold Init
  rw [hok]
  refine ⟨by simp [hlen0], ?_⟩
  simp [hlen0, hne, Len, shuffleGo_length, hlen]

theorem c9_init_len_witness :
    (Init (fun _ => 0) ⟨[], -1, -1, none⟩
      [['a', ':', '1'], ['b', ':', '2']]).2 = none ∧
    Len (Init (fun _ => 0) ⟨[], -1, -1, none⟩
      [['a', ':', '1'], ['b', ':', '2']]).1 = 2 :=
  c9_init_len (fun _ => 0) ⟨[], -1, -1, none⟩
    [['a', ':', '1'], ['b', ':', '2']] (by decide) (by decide)

/-- Claim C10: `Next()` on an empty sequence performs `% 0`, a Go panic,
so the embedded `Next` is partial; on the states the data model allows
(`curr ≥ -1`) the `none` branch is reached exactly when the sequence is
empty, i.e. when no successful `Init` has set the state up. -/
theorem c10_next_none_iff_empty (net : Resolver) (js : Nat → Nat)
    (hp : DNSHostProvider) (hc : -1 ≤ hp.curr) :
    Next net js hp = none ↔ hp.servers = [] := by
  constructor
  · intro hnone
    by_contra hne
    rw [Next_eq_some net js hp hne hc] at hnone
    exact Option.noConfusion hnone
  · intro hempty
    unfold Next
    rw [if_pos (by simp [hempty])]

theorem c10_next_none_iff_empty_witness :
    Next (fun _ => Except.error []) (fun _ => 0)
      (⟨[], -1, -1, none⟩ : DNSHostProvider) = none ↔
      ([] : List inetAddress) = [] :=
  c10_next_none_iff_empty (fun _ => Except.error []) (fun _ => 0)
    ⟨[], -1, -1, none⟩ (by decide)

end ZkHost
